import Mathlib

/-!
Verification of the mail-receiver service (src/server.ts).

The development shallowly embeds the ingestion and index-maintenance core of
the service.  JSON documents are modelled at the value level (an inductive
`Json`): `JSON.stringify` of an in-memory structure is an encoding function
into `Json`, `JSON.parse` of a stored file yields the stored `Json` value, so
"semantic JSON equality" of two texts is plain equality of `Json` values.
The filesystem is a map from path strings to file contents; a file is either
a JSON document or non-JSON text (raw captures, corrupt files).

External collaborators (luxon dates, the sanitize-filename package, the JS
string builtins) are embedded as executable Lean functions faithful to their
documented behaviour on the inputs this program feeds them; the process time
zone is taken to be UTC, as in the service's container.
-/

/-- Value-level JSON documents.  A stored `.json` file is modelled by the
`Json` value its text parses to. -/
inductive Json where
  | null : Json
  | str (s : String) : Json
  | arr (items : List Json) : Json
  | obj (fields : List (String × Json)) : Json

/-- Field lookup on a JSON object (first binding wins, as in a parsed JS
object); `none` on non-objects or absent keys. -/
def Json.get (j : Json) (key : String) : Option Json :=
  match j with
  | .obj fields => fields.lookup key
  | _ => none

/-- Contents of one file: a JSON document (a file whose text `JSON.parse`
accepts) or plain non-JSON text (the `.raw` captures, or corrupt data on
which `JSON.parse` throws). -/
inductive FileContent where
  | json (j : Json) : FileContent
  | text (s : String) : FileContent

/-- The filesystem under the service's working directory: a partial map from
path strings to file contents. -/
def FS : Type := String → Option FileContent

/-- Effect of `writeFile path content` on the filesystem: one whole-file
overwrite. -/
def FS.write (fs : FS) (path : String) (content : FileContent) : FS :=
  fun p => if p = path then some content else fs p

/-- The empty filesystem (no file exists). -/
def emptyFS : FS := fun _ => none

/-- Result of `readFile` + `JSON.parse` at a path: `none` when the file is
absent or its text is not JSON (both raise, and every caller catches). -/
def readFileJson (fs : FS) (path : String) : Option Json :=
  match fs path with
  | some (.json j) => some j
  | _ => none

/-- A JavaScript `Error` value, reduced to its message.  Note that
`JSON.stringify` of an `Error` yields `{}` (its properties are
non-enumerable), which `encodeError` below reflects. -/
structure JsError where
  message : String
deriving DecidableEq, Repr

/-- Encoding of a JS `Error` by `JSON.stringify`: the empty object. -/
def encodeError (_e : JsError) : Json := Json.obj []

/-- The `TransactionSummary` record of src/server.ts.  The source field
`from` is called `fromAddr` here (`from` is a Lean keyword). -/
structure TransactionSummary where
  recipientFolderPath : String
  messageId : String
  processedAt : String
  fromAddr : Option String := none
  subject : Option String := none
  filename : String
  error : Option JsError := none
  writeErr : Option JsError := none
deriving DecidableEq, Repr

/-- The `IndexType` record of src/server.ts: one weekly bucket. -/
structure IndexType where
  name : String
  messages : List TransactionSummary
deriving DecidableEq, Repr

/-- Optional string field of a stringified object: present iff the value is
not `undefined` (JSON.stringify omits `undefined`-valued properties). -/
def optStrField (key : String) (v : Option String) : List (String × Json) :=
  match v with
  | some s => [(key, Json.str s)]
  | none => []

/-- Optional `Error`-valued field of a stringified object. -/
def optErrField (key : String) (v : Option JsError) : List (String × Json) :=
  match v with
  | some e => [(key, encodeError e)]
  | none => []

/-- Value-level `JSON.stringify` of a `TransactionSummary`, with the keys in
the insertion order of `handleMessageStream`. -/
def encodeSummary (s : TransactionSummary) : Json :=
  Json.obj
    ([("recipientFolderPath", Json.str s.recipientFolderPath),
      ("messageId", Json.str s.messageId),
      ("processedAt", Json.str s.processedAt),
      ("filename", Json.str s.filename)]
      ++ optStrField ("from") s.fromAddr
      ++ optStrField ("subject") s.subject
      ++ optErrField ("error") s.error
      ++ optErrField ("writeErr") s.writeErr)

/-- Value-level `JSON.stringify` of a weekly index. -/
def encodeIndex (index : IndexType) : Json :=
  Json.obj [("name", Json.str index.name), ("messages", Json.arr (index.messages.map encodeSummary))]

/-- Reading of an optional string property from a parsed JSON value. -/
def decodeOptStr : Option Json → Option String
  | some (.str s) => some s
  | _ => none

/-- Reading of a stored message entry back as a `TransactionSummary`.  A
stored `error`/`writeErr` is the empty object `{}`, so only its presence
survives; it is read back as an `Error` with an empty message. -/
def decodeSummary (j : Json) : Option TransactionSummary :=
  match j.get ("recipientFolderPath"), j.get ("messageId"),
        j.get ("processedAt"), j.get ("filename") with
  | some (.str r), some (.str m), some (.str p), some (.str f) =>
      some { recipientFolderPath := r, messageId := m, processedAt := p,
             fromAddr := decodeOptStr (j.get ("from")),
             subject := decodeOptStr (j.get ("subject")),
             filename := f,
             error := (j.get ("error")).map (fun _ => JsError.mk ("")),
             writeErr := (j.get ("writeErr")).map (fun _ => JsError.mk ("")) }
  | _, _, _, _ => none

/-- Reading of a stored message list back as `TransactionSummary` values. -/
def decodeMessages : List Json → Option (List TransactionSummary)
  | [] => some []
  | j :: rest =>
    match decodeSummary j, decodeMessages rest with
    | some s, some l => some (s :: l)
    | _, _ => none

/-- Reading of a stored weekly index file back as an `IndexType`. -/
def decodeIndex (j : Json) : Option IndexType :=
  match j.get ("name"), j.get ("messages") with
  | some (.str n), some (.arr items) =>
    match decodeMessages items with
    | some msgs => some { name := n, messages := msgs }
    | none => none
  | _, _ => none

/-- The image of a summary after one store/load cycle: `error`/`writeErr`
keep only their presence (their messages are not representable in JSON). -/
def canonSummary (s : TransactionSummary) : TransactionSummary :=
  { s with error := s.error.map (fun _ => JsError.mk ("")),
           writeErr := s.writeErr.map (fun _ => JsError.mk ("")) }

/-!  Dates.  The service uses luxon `DateTime.utc()` timestamps, serialized
with `toISO()` and re-parsed with `fromISO`; `weekNumber` is the ISO-8601
week number and `year` the calendar year.  The process runs with a UTC time
zone (container default), so the parsed fields are those of the ISO string
itself. -/

/-- A UTC wall-clock instant with millisecond precision, as carried by a
luxon `DateTime` in the UTC zone. -/
structure UtcDateTime where
  year : Nat
  month : Nat
  day : Nat
  hour : Nat
  minute : Nat
  second : Nat
  millisecond : Nat
deriving DecidableEq, Repr

/-- Gregorian leap-year test. -/
def isLeapYear (y : Nat) : Bool :=
  y % 4 == 0 && (y % 100 != 0 || y % 400 == 0)

/-- Number of days in a month. -/
def daysInMonth (y m : Nat) : Nat :=
  if m = 2 then (if isLeapYear y then 29 else 28)
  else if m = 4 ∨ m = 6 ∨ m = 9 ∨ m = 11 then 30
  else 31

/-- Days in the months strictly before month `m` of year `y`. -/
def daysBeforeMonth (y m : Nat) : Nat :=
  [0, 31, 59, 90, 120, 151, 181, 212, 243, 273, 304, 334].getD (m - 1) 0
    + (if 3 ≤ m ∧ isLeapYear y then 1 else 0)

/-- Ordinal day of the year (1-based). -/
def ordinalDay (y m d : Nat) : Nat := daysBeforeMonth y m + d

/-- Day of the week by Sakamoto's method, 0 = Sunday .. 6 = Saturday. -/
def sakamotoDayOfWeek (y m d : Nat) : Nat :=
  let t := [0, 3, 2, 5, 0, 3, 5, 1, 4, 6, 2, 4]
  let y2 := if m < 3 then y - 1 else y
  (y2 + y2 / 4 + y2 / 400 + t.getD (m - 1) 0 + d - y2 / 100) % 7

/-- ISO day of the week, 1 = Monday .. 7 = Sunday. -/
def isoDayOfWeek (y m d : Nat) : Nat :=
  (sakamotoDayOfWeek y m d + 6) % 7 + 1

/-- Auxiliary weekday parameter of the ISO week-count rule. -/
def isoWeekParam (y : Nat) : Nat :=
  (y + y / 4 + y / 400 - y / 100) % 7

/-- Number of ISO weeks in the ISO year `y` (52 or 53). -/
def weeksInISOYear (y : Nat) : Nat :=
  if isoWeekParam y = 4 ∨ isoWeekParam (y - 1) = 3 then 53 else 52

/-- ISO-8601 week number of a date, as luxon's `weekNumber` reports it. -/
def UtcDateTime.weekNumber (t : UtcDateTime) : Nat :=
  let ord := ordinalDay t.year t.month t.day
  let wd := isoDayOfWeek t.year t.month t.day
  let w := (ord + 10 - wd) / 7
  if w = 0 then weeksInISOYear (t.year - 1)
  else if weeksInISOYear t.year < w then 1
  else w

/-- Decimal digits of `n` left-padded with zeros to width `w`. -/
def padZeros (n w : Nat) : String :=
  let s := Nat.repr n
  String.mk (List.replicate (w - s.data.length) '0' ++ s.data)

/-- Luxon `toISO()` of a UTC instant: `YYYY-MM-DDTHH:MM:SS.mmmZ`. -/
def toISO (t : UtcDateTime) : String :=
  padZeros t.year 4 ++ "-" ++ padZeros t.month 2 ++ "-" ++ padZeros t.day 2
    ++ "T" ++ padZeros t.hour 2 ++ ":" ++ padZeros t.minute 2
    ++ ":" ++ padZeros t.second 2 ++ "." ++ padZeros t.millisecond 3 ++ "Z"

/-- Value of a decimal digit character. -/
def digitVal (c : Char) : Option Nat :=
  if c.isDigit then some (c.toNat - 48) else none

/-- Parsing of a run of decimal digits (most significant first). -/
def parseDigitsAux : List Char → Nat → Option Nat
  | [], acc => some acc
  | c :: rest, acc =>
    match digitVal c with
    | some d => parseDigitsAux rest (acc * 10 + d)
    | none => none

/-- Luxon `DateTime.fromISO` restricted to the timestamp shape this service
itself produces (`toISO` output); any other string yields `none`, modelling
an invalid `DateTime`. -/
def fromISO (s : String) : Option UtcDateTime :=
  let cs := s.data
  match parseDigitsAux (cs.take 4) 0, parseDigitsAux ((cs.drop 5).take 2) 0,
        parseDigitsAux ((cs.drop 8).take 2) 0, parseDigitsAux ((cs.drop 11).take 2) 0,
        parseDigitsAux ((cs.drop 14).take 2) 0, parseDigitsAux ((cs.drop 17).take 2) 0,
        parseDigitsAux ((cs.drop 20).take 3) 0 with
  | some y, some mo, some d, some h, some mi, some sec, some ms =>
    if cs.length = 24 ∧ cs.get? 4 = some '-' ∧ cs.get? 7 = some '-'
        ∧ cs.get? 10 = some 'T' ∧ cs.get? 13 = some ':' ∧ cs.get? 16 = some ':'
        ∧ cs.get? 19 = some '.' ∧ cs.get? 23 = some 'Z'
        ∧ 1 ≤ mo ∧ mo ≤ 12 ∧ 1 ≤ d ∧ d ≤ daysInMonth y mo
        ∧ h ≤ 23 ∧ mi ≤ 59 ∧ sec ≤ 59
    then some ⟨y, mo, d, h, mi, sec, ms⟩
    else none
  | _, _, _, _, _, _, _ => none

/-!  JavaScript string builtins used by src/server.ts, modelled on character
lists (structural recursion, so proofs and witnesses evaluate). -/

/-- JS `String.prototype.toLowerCase` (the service only lowercases ASCII
addresses and domain names). -/
def jsToLower (s : String) : String := String.mk (s.data.map Char.toLower)

/-- JS `String.prototype.startsWith`. -/
def jsStartsWith (s pre : String) : Bool := pre.data.isPrefixOf s.data

/-- JS `String.prototype.endsWith`. -/
def jsEndsWith (s suf : String) : Bool := suf.data.isSuffixOf s.data

/-- Accumulator loop of `jsSplitChar`. -/
def splitCharAux (sep : Char) : List Char → List Char → List (List Char)
  | [], acc => [acc.reverse]
  | c :: rest, acc =>
    if c = sep then acc.reverse :: splitCharAux sep rest []
    else splitCharAux sep rest (c :: acc)

/-- JS `String.prototype.split` with a one-character separator (the service
splits only on `','` and `'@'`).  Always returns at least one piece;
`''.split(',')` is `['']`. -/
def jsSplitChar (sep : Char) (s : String) : List String :=
  (splitCharAux sep s.data []).map String.mk

/-- Replacement loop of `jsReplaceFirst`. -/
def replaceFirstAux (pat rep : List Char) : List Char → List Char
  | [] => []
  | c :: rest =>
    if pat.isPrefixOf (c :: rest) then rep ++ (c :: rest).drop pat.length
    else c :: replaceFirstAux pat rep rest

/-- JS `String.prototype.replace` with string pattern and replacement:
replaces the first occurrence only. -/
def jsReplaceFirst (s pat rep : String) : String :=
  String.mk (replaceFirstAux pat.data rep.data s.data)

/-- JS `String.prototype.slice(0, -1)`: all but the last character. -/
def jsDropLast (s : String) : String := String.mk s.data.dropLast

/-!  The sanitize-filename package (the service's Filename Sanitizer), with
its `replacement` option set to `'-'`: five regex replacements followed by a
truncation to 255 UTF-8 bytes. -/

/-- Characters matched by sanitize-filename's `illegalRe`. -/
def isIllegalChar (c : Char) : Bool :=
  c ∈ ['/', '?', '<', '>', '\\', ':', '*', '|', '"']

/-- Characters matched by sanitize-filename's `controlRe`
(`\x00`-`\x1f` and `\x80`-`\x9f`). -/
def isControlCharJs (c : Char) : Bool :=
  c.toNat ≤ 31 || (128 ≤ c.toNat && c.toNat ≤ 159)

/-- Replacement of the globally-matched `illegalRe` characters. -/
def replaceIllegal (cs : List Char) : List Char :=
  cs.map (fun c => if isIllegalChar c then '-' else c)

/-- Replacement of the globally-matched `controlRe` characters. -/
def replaceControl (cs : List Char) : List Char :=
  cs.map (fun c => if isControlCharJs c then '-' else c)

/-- Replacement of a `reservedRe` match (a name that is all dots). -/
def replaceReserved (cs : List Char) : List Char :=
  if cs ≠ [] ∧ cs.all (fun c => c = '.') then ['-'] else cs

/-- Base names matched case-insensitively by `windowsReservedRe`. -/
def windowsReservedNames : List String :=
  ["con", "prn", "aux", "nul",
   "com0", "com1", "com2", "com3", "com4", "com5", "com6", "com7", "com8", "com9",
   "lpt0", "lpt1", "lpt2", "lpt3", "lpt4", "lpt5", "lpt6", "lpt7", "lpt8", "lpt9"]

/-- Replacement of a `windowsReservedRe` match (a reserved device name,
optionally followed by a dot and anything). -/
def replaceWindowsReserved (cs : List Char) : List Char :=
  let low := cs.map Char.toLower
  if windowsReservedNames.any (fun n => low = n.data ∨ (n.data ++ ['.']).isPrefixOf low)
  then ['-'] else cs

/-- Replacement of a `windowsTrailingRe` match (a trailing run of dots and
spaces becomes a single replacement character). -/
def replaceWindowsTrailing (cs : List Char) : List Char :=
  let rev := cs.reverse
  let stripped := rev.dropWhile (fun c => c = '.' ∨ c = ' ')
  if stripped.length = rev.length then cs else stripped.reverse ++ ['-']

/-- Truncation to a byte budget at character boundaries
(truncate-utf8-bytes). -/
def truncUtf8Aux : List Char → Nat → List Char
  | [], _ => []
  | c :: rest, budget =>
    if c.utf8Size ≤ budget then c :: truncUtf8Aux rest (budget - c.utf8Size) else []

/-- The Filename Sanitizer: `sanitize(input, { replacement: '-' })`. -/
def sanitize (input : String) : String :=
  String.mk
    (truncUtf8Aux
      (replaceWindowsTrailing
        (replaceWindowsReserved
          (replaceReserved
            (replaceControl
              (replaceIllegal input.data))))) 255)

/-!  The server operations of src/server.ts. -/

/-- Derivation of `EMAIL_DOMAINS` from the environment:
`(process.env.EMAIL_DOMAIN || '').split(',')`.  An unset (or empty) variable
yields `['']`. -/
def emailDomainsOfEnv (env : Option String) : List String :=
  jsSplitChar ',' (env.getD (""))

/-- The `onRcptTo` hook: per-recipient accept/reject decision.  `none`
models calling back with no argument (accept); `some e` models
`callback(new Error('No thank you'))` (reject).  `accountPre` is the
configured `EMAIL_ACCOUNT_PREFIX`, `domains` the configured
`EMAIL_DOMAINS`. -/
def onRcptTo (address : String) (accountPre : String) (domains : List String) : Option JsError :=
  let recipientAddress := jsToLower address
  if jsStartsWith recipientAddress accountPre
      && (domains.find? (fun domain => jsEndsWith recipientAddress (jsToLower domain))).isSome
  then none
  else some (JsError.mk ("No thank you"))

/-- Mailparser's first `from` address entry (`parsed.from.value[0]`); its
`address` property may be undefined. -/
structure MailAddress where
  address : Option String
deriving DecidableEq, Repr

/-- The slice of mailparser's `ParsedMail` that `handleMessageStream` reads:
the optional first sender address object, the optional subject, and the
value of `JSON.stringify(parsed)` (the decoded artifact body). -/
structure ParsedMail where
  fromAddr : Option MailAddress := none
  subject : Option String := none
  serialized : Json := Json.obj []

/-- Reading of `parsed.from.value[0].address` when `parsed.from` is
present (mailparser populates at least one entry): the optional address of
the first sender entry. -/
def jsFirstAddress : Option MailAddress → Option String
  | some x => x.address
  | none => none

/-- The `handleMessageStream` operation.  Inputs beyond the stream identity:
the decode outcome delivered by `simpleParser`'s callback (`parseResult`),
the outcome of the artifact `writeFile` (`writeResult`, `some e` when the
promise rejects with `e`), and the raw bytes of the stream (`rawBody`).
The returned promise resolves exactly once, with the summary; modelled as a
total function returning the summary and the filesystem after the `.raw`
capture and the artifact write. -/
def handleMessageStream (fs : FS) (recipientFolderPath : String) (messageId : String)
    (transactionTime : UtcDateTime) (parseResult : Except JsError ParsedMail)
    (writeResult : Option JsError) (rawBody : String) : TransactionSummary × FS :=
  let processedAtISO := toISO transactionTime
  let base : TransactionSummary :=
    { recipientFolderPath := recipientFolderPath, messageId := messageId,
      processedAt := processedAtISO, filename := "" }
  let messageLabel := processedAtISO ++ "-" ++ messageId
  let fs1 := fs.write (recipientFolderPath ++ messageLabel ++ ".raw") (.text rawBody)
  let choice : String × Json × TransactionSummary :=
    match parseResult with
    | .error parseErr =>
      (recipientFolderPath ++ messageLabel ++ ".err", encodeError parseErr,
       { base with error := some parseErr })
    | .ok parsed =>
      (recipientFolderPath ++ messageLabel ++ ".json", parsed.serialized,
       { base with
           fromAddr := jsFirstAddress parsed.fromAddr,
           subject := parsed.subject,
           filename := messageLabel ++ ".json" })
  match writeResult with
  | some writeErr => ({ choice.2.2 with writeErr := some writeErr }, fs1)
  | none => (choice.2.2, fs1.write choice.1 (.json choice.2.1))

/-- Path of a weekly index bucket on disk. -/
def indexPath (indexName : String) : String := "mail/" ++ indexName ++ ".json"

/-- Bucket name `w<weekNumber>-<year>` of a parsed timestamp.  An invalid
`DateTime` (a `processedAt` that does not parse) has `NaN` week and year,
giving the literal bucket name `wNaN-NaN`. -/
def weekBucketToken : Option UtcDateTime → String
  | some t => "w" ++ Nat.repr t.weekNumber ++ "-" ++ Nat.repr t.year
  | none => "wNaN-NaN"

/-- The `loadWeeklyIndex` operation: read and parse `mail/<name>.json`;
on any read or parse failure the `catch` falls back to
`{ name, messages: [] }`.  (The source trusts the parsed shape; the typed
embedding reads it back through `decodeIndex`, with the same fallback.) -/
def loadWeeklyIndex (fs : FS) (indexName : String) : IndexType :=
  match readFileJson fs (indexPath indexName) with
  | none => { name := indexName, messages := [] }
  | some j => (decodeIndex j).getD { name := indexName, messages := [] }

/-- The `saveWeeklyIndex` operation: serialize the full bucket and overwrite
`mail/<index.name>.json` in one write. -/
def saveWeeklyIndex (fs : FS) (index : IndexType) : FS :=
  fs.write (indexPath index.name) (.json (encodeIndex index))

/-- The `updateOrCreateWeeklyMessageIndex` operation: compute the bucket
name from `processedAt`, load the existing bucket, prepend the summary,
save.  The `await` between the load and the save is an interleaving point
for other tasks (see `stepTask`). -/
def updateOrCreateWeeklyMessageIndex (fs : FS) (transactionSummary : TransactionSummary) : FS :=
  let indexName := weekBucketToken (fromISO transactionSummary.processedAt)
  let existingIndex := loadWeeklyIndex fs indexName
  saveWeeklyIndex fs { existingIndex with messages := transactionSummary :: existingIndex.messages }

/-- Recipient storage directory derived in `onData`:
`mail/<sanitize(address)>/`. -/
def recipientFolderPathOf (address : String) : String :=
  "mail/" ++ sanitize address ++ "/"

/-- The `onData` hook for one delivered message: derive the recipient
folder, ingest the stream, and update the weekly index only when the
summary records neither a decode error nor a write error.  (The
`createRecipientDirectory` call only creates directories and touches no
file contents.) -/
def onData (fs : FS) (rcptAddress : String) (messageId : String)
    (transactionTime : UtcDateTime) (parseResult : Except JsError ParsedMail)
    (writeResult : Option JsError) (rawBody : String) : TransactionSummary × FS :=
  let recipientFolderPath := recipientFolderPathOf rcptAddress
  let r := handleMessageStream fs recipientFolderPath messageId transactionTime parseResult writeResult rawBody
  match r.1.error with
  | some _ => r
  | none =>
    match r.1.writeErr with
    | some _ => r
    | none => (r.1, updateOrCreateWeeklyMessageIndex r.2 r.1)

/-!  The admin read API of src/server.ts (`startAdminAPI`). -/

/-- Uppercase hexadecimal digit. -/
def hexDigitUpper (n : Nat) : Char :=
  if n < 10 then Nat.digitChar n else Char.ofNat (55 + n)

/-- Percent-encoding of one byte. -/
def percentEncodeByte (b : UInt8) : List Char :=
  ['%', hexDigitUpper (b.toNat / 16), hexDigitUpper (b.toNat % 16)]

/-- Characters `encodeURIComponent` leaves unescaped. -/
def isUriUnreserved (c : Char) : Bool :=
  c.isAlphanum || c ∈ ['-', '_', '.', '!', '~', '*', Char.ofNat 39, '(', ')']

/-- JS `encodeURIComponent`. -/
def encodeURIComponent (s : String) : String :=
  String.mk (s.data.flatMap (fun c =>
    if isUriUnreserved c then [c] else (String.utf8EncodeChar c).flatMap percentEncodeByte))

/-- Fields of a parsed JSON value when spread into an object literal (the
stored artifacts and index entries spread this way are objects). -/
def jsonObjFields : Json → List (String × Json)
  | .obj fields => fields
  | _ => []

/-- Override of one key in a JS object literal (`{...spread, key: v}`): the
key keeps its position, later values win; an absent key is appended. -/
def overrideField : List (String × Json) → String → Json → List (String × Json)
  | [], key, v => [(key, v)]
  | (k, v0) :: rest, key, v =>
    if k = key then (key, v) :: rest else (k, v0) :: overrideField rest key v

/-- The `loadMessage` operation: re-derive the recipient folder from
`username@domain` with the same sanitizer used at ingestion, read and parse
the artifact, and return it merged with the request parameters; every read
or parse failure is caught and returns `null` (`none`). -/
def loadMessage (fs : FS) (domain : String) (username : String)
    (messageFilename : String) : Option Json :=
  let recipientFolderPath :=
    "mail/" ++ sanitize (username ++ "@" ++ domain) ++ "/" ++ messageFilename
  match readFileJson fs recipientFolderPath with
  | none => none
  | some content =>
    some (Json.obj
      ([("domain", Json.str domain), ("username", Json.str username),
        ("messageFilename", Json.str messageFilename)] ++ jsonObjFields content))

/-- The `GET /api/mail/:domain/:username/:messageFilename` handler: status
404 with a uniform body when `loadMessage` returns `null`, else 200 with
the message. -/
def fetchMessageRoute (fs : FS) (domain : String) (username : String)
    (messageFilename : String) : Nat × Json :=
  match loadMessage fs domain username messageFilename with
  | none => (404, Json.obj [("message", Json.str ("Not Found"))])
  | some m => (200, m)

/-- The per-entry view built by the `GET /api/mail/:year/:week` handler:
the stored entry with `recipientFolderPath` nulled out and derived
`recipient` and `message.href` fields.  A recipient without `'@'` leaves
`split('@')[1]` undefined, which stringifies as `"undefined"` in the
link. -/
def messageView (message : TransactionSummary) : Json :=
  let recipient := jsDropLast (jsReplaceFirst message.recipientFolderPath ("mail/") (""))
  let parts := jsSplitChar '@' recipient
  let username := parts.getD 0 ("undefined")
  let domain := parts.getD 1 ("undefined")
  let href := "/api/mail/" ++ encodeURIComponent domain ++ "/"
    ++ encodeURIComponent username ++ "/" ++ encodeURIComponent message.filename
  Json.obj
    (overrideField (jsonObjFields (encodeSummary message)) ("recipientFolderPath") Json.null
      ++ [("recipient", Json.str recipient),
          ("message", Json.obj [("href", Json.str href)])])

/-- The `GET /api/mail/:year/:week` handler: load bucket `w<week>-<year>`
and return the view of each stored entry. -/
def listBucket (fs : FS) (year week : Nat) : List Json :=
  let indexName := "w" ++ Nat.repr week ++ "-" ++ Nat.repr year
  let index := loadWeeklyIndex fs indexName
  index.messages.map messageView

/-!  Interleaving semantics of concurrent weekly-index updates.  One
`updateOrCreateWeeklyMessageIndex` call touches the filesystem twice, with
an `await` between: the load (`readFile`) and the save (`writeFile`).
Concurrent connections interleave at these suspension points, so a run is a
schedule of per-task steps; `stepTask` performs the next step of one
task. -/

/-- Progress of one in-flight index update: not yet loaded, loaded (holding
the bucket value it read), or saved. -/
inductive UpdatePhase where
  | pending : UpdatePhase
  | loaded (index : IndexType) : UpdatePhase
  | done : UpdatePhase
deriving DecidableEq, Repr

/-- One in-flight `updateOrCreateWeeklyMessageIndex` call. -/
structure UpdateTask where
  summary : TransactionSummary
  phase : UpdatePhase
deriving DecidableEq, Repr

/-- Filesystem plus the in-flight index updates. -/
structure IndexUpdateState where
  fs : FS
  tasks : List UpdateTask

/-- One step of task `i`: a pending task performs its load, a loaded task
performs its prepend-and-save.  Indices past the task list and finished
tasks are no-ops. -/
def stepTask (st : IndexUpdateState) (i : Nat) : IndexUpdateState :=
  match st.tasks.get? i with
  | none => st
  | some t =>
    match t.phase with
    | .pending =>
      let indexName := weekBucketToken (fromISO t.summary.processedAt)
      { st with tasks := st.tasks.set i { t with phase := .loaded (loadWeeklyIndex st.fs indexName) } }
    | .loaded existingIndex =>
      { fs := saveWeeklyIndex st.fs { existingIndex with messages := t.summary :: existingIndex.messages },
        tasks := st.tasks.set i { t with phase := .done } }
    | .done => st

/-- Execution of a schedule: the listed task steps, in order. -/
def runSchedule (st : IndexUpdateState) (schedule : List Nat) : IndexUpdateState :=
  schedule.foldl stepTask st

/-!  Supporting lemmas. -/

/-- Digit characters produced by `Nat.digitChar` below base 10. -/
theorem digitChar_isDigit (n : Nat) (h : n < 10) : (Nat.digitChar n).isDigit = true := by
  interval_cases n <;> decide

/-- All characters accumulated by `Nat.toDigitsCore` at base 10 are decimal
digits. -/
theorem toDigitsCore_digits (fuel : Nat) :
    ∀ (n : Nat) (acc : List Char), (∀ c ∈ acc, c.isDigit = true) →
      ∀ c ∈ Nat.toDigitsCore 10 fuel n acc, c.isDigit = true := by
  induction fuel with
  | zero =>
    intro n acc hacc c hc
    exact hacc c hc
  | succ f ih =>
    intro n acc hacc c hc
    rw [Nat.toDigitsCore] at hc
    have hcons : ∀ c' ∈ Nat.digitChar (n % 10) :: acc, c'.isDigit = true := by
      intro c' hc'
      rcases List.mem_cons.mp hc' with hc' | hc'
      · subst hc'
        exact digitChar_isDigit _ (Nat.mod_lt _ (by omega))
      · exact hacc c' hc'
    by_cases h : n / 10 = 0
    · rw [if_pos h] at hc
      exact hcons c hc
    · rw [if_neg h] at hc
      exact ih _ _ hcons c hc

/-- Decimal representations consist of digit characters only. -/
theorem repr_digits (n : Nat) : ∀ c ∈ (Nat.repr n).data, c.isDigit = true := by
  intro c hc
  exact toDigitsCore_digits (n + 1) n [] (by intro c h; cases h) c hc

/-- A decimal representation contains no `'/'`. -/
theorem count_slash_repr (n : Nat) : (Nat.repr n).data.count '/' = 0 := by
  rw [List.count_eq_zero]
  intro hmem
  have := repr_digits n _ hmem
  exact absurd this (by decide)

/-- A string extended with `".json"` is not empty. -/
theorem append_json_ne_empty (a : String) : a ++ ".json" ≠ "" := by
  intro h
  have h2 : a.data ++ (".json").data = [] := by
    have h3 := congrArg String.data h
    rwa [String.data_append] at h3
  rcases List.append_eq_nil.mp h2 with ⟨-, h4⟩
  exact absurd h4 (by decide)

/-- Claim C2: after ingestion exactly one of a non-empty `filename` and a
present `error` holds on the returned Transaction Summary, and the write
outcome (`writeErr`) influences neither field. -/
theorem C2_exactly_one_filename_or_error (fs : FS) (rfp mid : String) (t : UtcDateTime)
    (pr : Except JsError ParsedMail) (w : Option JsError) (raw : String) :
    ((handleMessageStream fs rfp mid t pr w raw).1.filename ≠ ""
        ↔ (handleMessageStream fs rfp mid t pr w raw).1.error = none)
      ∧ (∀ w' : Option JsError,
          (handleMessageStream fs rfp mid t pr w' raw).1.filename
            = (handleMessageStream fs rfp mid t pr w raw).1.filename
          ∧ (handleMessageStream fs rfp mid t pr w' raw).1.error
            = (handleMessageStream fs rfp mid t pr w raw).1.error) := by
  constructor
  · cases pr with
    | error e =>
      cases w <;>
        simp [handleMessageStream]
    | ok parsed =>
      cases w <;>
        simpa [handleMessageStream] using append_json_ne_empty (toISO t ++ "-" ++ mid)
  · intro w'
    cases pr <;> cases w <;> cases w' <;> exact ⟨rfl, rfl⟩

/-- Claim C4: ingestion is a total function of its inputs (the promise
resolves exactly once, never rejects): a decode failure is recorded in
`error`, the artifact-write outcome is recorded in `writeErr`, and erasing
`writeErr` recovers the summary of a successful write (the decode-outcome
fields are untouched by a write failure). -/
theorem C4_ingestion_captures_failures (fs : FS) (rfp mid : String) (t : UtcDateTime)
    (pr : Except JsError ParsedMail) (w : Option JsError) (raw : String) :
    ((handleMessageStream fs rfp mid t pr w raw).1.error
        = match pr with
          | .error e => some e
          | .ok _ => none)
      ∧ ((handleMessageStream fs rfp mid t pr w raw).1.writeErr = w)
      ∧ ({ (handleMessageStream fs rfp mid t pr w raw).1 with writeErr := none }
          = (handleMessageStream fs rfp mid t pr none raw).1) := by
  cases pr <;> cases w <;> exact ⟨rfl, rfl, rfl⟩

/-- JS `startsWith` with the empty search string always holds. -/
theorem jsStartsWith_empty (s : String) : jsStartsWith s ("") = true := by
  show (("" : String).data).isPrefixOf s.data = true
  rw [show ("" : String).data = [] from rfl]
  cases s.data <;> rfl

/-- JS `endsWith` with the empty search string always holds. -/
theorem jsEndsWith_empty (s : String) : jsEndsWith s ("") = true := by
  show (("" : String).data).isSuffixOf s.data = true
  rw [show ("" : String).data = [] from rfl]
  simp [List.isSuffixOf]

/-- Lowercasing the empty string. -/
theorem jsToLower_empty : jsToLower ("") = ("") := by
  apply String.ext
  rfl

/-- Acceptance in `onRcptTo` is exactly the truth of its guard. -/
theorem onRcptTo_accepts_iff (a p : String) (ds : List String) :
    (onRcptTo a p ds = none)
      ↔ (jsStartsWith (jsToLower a) p
          && (ds.find? fun domain => jsEndsWith (jsToLower a) (jsToLower domain)).isSome) = true := by
  simp only [onRcptTo]
  by_cases hc : (jsStartsWith (jsToLower a) p
      && (ds.find? fun domain => jsEndsWith (jsToLower a) (jsToLower domain)).isSome) = true
  · rw [if_pos hc]
    exact iff_of_true rfl hc
  · rw [if_neg hc]
    exact iff_of_false (by simp) hc

/-- Claim C3: the per-recipient policy accepts exactly when the lowercased
address starts with the configured account prefix and ends with the
lowercase form of at least one configured domain; any rejection carries the
generic `No thank you` error; the empty prefix matches every address. -/
theorem C3_recipient_policy (a p : String) (ds : List String) :
    (onRcptTo a p ds = none ↔
      (jsStartsWith (jsToLower a) p = true
        ∧ ∃ d ∈ ds, jsEndsWith (jsToLower a) (jsToLower d) = true))
      ∧ (onRcptTo a p ds = none ∨ onRcptTo a p ds = some (JsError.mk ("No thank you")))
      ∧ jsStartsWith (jsToLower a) ("") = true := by
  refine ⟨?_, ?_, jsStartsWith_empty _⟩
  · rw [onRcptTo_accepts_iff]
    simp only [Bool.and_eq_true, List.find?_isSome]
  · simp only [onRcptTo]
    by_cases hc : (jsStartsWith (jsToLower a) p
        && (ds.find? fun domain => jsEndsWith (jsToLower a) (jsToLower domain)).isSome) = true
    · left
      rw [if_pos hc]
    · right
      rw [if_neg hc]

/-- Claim C9: an unset domain variable yields the domain list `[""]`, and
with the empty string among the configured domains the suffix test always
succeeds, so acceptance is exactly the prefix test on the lowercased
address. -/
theorem C9_empty_domain_accepts_all (ds : List String) (h : ("") ∈ ds) (a p : String) :
    emailDomainsOfEnv none = [("")]
      ∧ (onRcptTo a p ds = none ↔ jsStartsWith (jsToLower a) p = true) := by
  refine ⟨rfl, ?_⟩
  have hfind : (ds.find? fun domain => jsEndsWith (jsToLower a) (jsToLower domain)).isSome = true := by
    apply List.find?_isSome.mpr
    refine ⟨"", h, ?_⟩
    rw [jsToLower_empty]
    exact jsEndsWith_empty _
  rw [onRcptTo_accepts_iff, hfind, Bool.and_true]

/-- Witness for C9 at a concrete configuration. -/
theorem C9_empty_domain_accepts_all_witness :
    ("") ∈ [("")]
      ∧ (emailDomainsOfEnv none = [("")]
          ∧ (onRcptTo ("anything@anywhere") ("") [("")] = none
              ↔ jsStartsWith (jsToLower ("anything@anywhere")) ("") = true)) :=
  ⟨by decide, C9_empty_domain_accepts_all [("")] (by decide) ("anything@anywhere") ("")⟩

/-- Store/load round trip of one summary: decoding its encoding yields the
canonical summary (error details collapse to presence). -/
theorem decode_encode_summary (s : TransactionSummary) :
    decodeSummary (encodeSummary s) = some (canonSummary s) := by
  obtain ⟨r, mi, pa, fa, su, fn, er, we⟩ := s
  cases fa <;> cases su <;> cases er <;> cases we <;> rfl

/-- Canonicalization does not change the JSON encoding of a summary. -/
theorem encode_canon_summary (s : TransactionSummary) :
    encodeSummary (canonSummary s) = encodeSummary s := by
  obtain ⟨r, mi, pa, fa, su, fn, er, we⟩ := s
  cases er <;> cases we <;> rfl

/-- Store/load round trip of a message list. -/
theorem decode_encode_messages (l : List TransactionSummary) :
    decodeMessages (l.map encodeSummary) = some (l.map canonSummary) := by
  induction l with
  | nil => rfl
  | cons s rest ih =>
    simp only [List.map_cons, decodeMessages, decode_encode_summary, ih]

/-- Store/load round trip of a whole weekly index value. -/
theorem decode_encode_index (index : IndexType) :
    decodeIndex (encodeIndex index)
      = some { name := index.name, messages := index.messages.map canonSummary } := by
  have h : decodeIndex (encodeIndex index)
      = match decodeMessages (index.messages.map encodeSummary) with
        | some msgs => some { name := index.name, messages := msgs }
        | none => none := rfl
  rw [h, decode_encode_messages]

/-- Canonicalizing every entry does not change the encoding of an index. -/
theorem encode_index_canon (index : IndexType) :
    encodeIndex { name := index.name, messages := index.messages.map canonSummary }
      = encodeIndex index := by
  unfold encodeIndex
  rw [List.map_map]
  have h : index.messages.map (encodeSummary ∘ canonSummary) = index.messages.map encodeSummary :=
    List.map_congr_left (fun s _ => encode_canon_summary s)
  rw [h]

/-- Claim C7: persisting a weekly index and loading it back yields a value
whose JSON encoding is that of the original (semantic JSON equality). -/
theorem C7_index_roundtrip (fs : FS) (index : IndexType) :
    encodeIndex (loadWeeklyIndex (saveWeeklyIndex fs index) index.name) = encodeIndex index := by
  have h : loadWeeklyIndex (saveWeeklyIndex fs index) index.name
      = (decodeIndex (encodeIndex index)).getD { name := index.name, messages := [] } := by
    unfold loadWeeklyIndex saveWeeklyIndex readFileJson FS.write
    rw [if_pos rfl]
  rw [h, decode_encode_index]
  exact encode_index_canon index

/-- Claim C5: the index append computes the bucket name `w<week>-<year>`
from the parsed `processedAt`, loads the existing bucket, prepends the
summary in front of the unchanged existing entries under the unchanged
bucket name, and persists the whole bucket in a single overwrite. -/
theorem C5_weekly_index_append (fs : FS) (s : TransactionSummary) (d : UtcDateTime)
    (h : fromISO s.processedAt = some d) :
    updateOrCreateWeeklyMessageIndex fs s
      = FS.write fs
          (indexPath (loadWeeklyIndex fs ("w" ++ Nat.repr d.weekNumber ++ "-" ++ Nat.repr d.year)).name)
          (.json (encodeIndex
            { name := (loadWeeklyIndex fs ("w" ++ Nat.repr d.weekNumber ++ "-" ++ Nat.repr d.year)).name,
              messages :=
                s :: (loadWeeklyIndex fs ("w" ++ Nat.repr d.weekNumber ++ "-" ++ Nat.repr d.year)).messages })) := by
  simp only [updateOrCreateWeeklyMessageIndex, weekBucketToken, saveWeeklyIndex, h]

/-- Sample summary used to instantiate C5. -/
def c5sample : TransactionSummary :=
  { recipientFolderPath := "mail/alice@example.com/", messageId := "m1",
    processedAt := "2024-10-07T10:00:00.000Z",
    filename := "2024-10-07T10:00:00.000Z-m1.json" }

/-- Witness for C5 at a concrete summary. -/
theorem C5_weekly_index_append_witness :
    fromISO (c5sample.processedAt) = some (⟨2024, 10, 7, 10, 0, 0, 0⟩ : UtcDateTime)
      ∧ updateOrCreateWeeklyMessageIndex emptyFS c5sample
          = FS.write emptyFS
              (indexPath (loadWeeklyIndex emptyFS
                ("w" ++ Nat.repr (⟨2024, 10, 7, 10, 0, 0, 0⟩ : UtcDateTime).weekNumber
                  ++ "-" ++ Nat.repr (⟨2024, 10, 7, 10, 0, 0, 0⟩ : UtcDateTime).year)).name)
              (.json (encodeIndex
                { name := (loadWeeklyIndex emptyFS
                    ("w" ++ Nat.repr (⟨2024, 10, 7, 10, 0, 0, 0⟩ : UtcDateTime).weekNumber
                      ++ "-" ++ Nat.repr (⟨2024, 10, 7, 10, 0, 0, 0⟩ : UtcDateTime).year)).name,
                  messages :=
                    c5sample :: (loadWeeklyIndex emptyFS
                      ("w" ++ Nat.repr (⟨2024, 10, 7, 10, 0, 0, 0⟩ : UtcDateTime).weekNumber
                        ++ "-" ++ Nat.repr (⟨2024, 10, 7, 10, 0, 0, 0⟩ : UtcDateTime).year)).messages })) :=
  ⟨by decide, C5_weekly_index_append emptyFS c5sample ⟨2024, 10, 7, 10, 0, 0, 0⟩ (by decide)⟩

/-- Claim C6: loading a bucket whose storage artifact is absent or
unreadable yields the empty bucket of that name rather than an error, and
the week-listing route renders an absent bucket as the empty sequence. -/
theorem C6_absent_bucket_empty (fs : FS) (n : String)
    (h : fs (indexPath n) = none ∨ ∃ s, fs (indexPath n) = some (.text s)) :
    loadWeeklyIndex fs n = { name := n, messages := [] }
      ∧ (∀ y w : Nat,
          fs (indexPath ("w" ++ Nat.repr w ++ "-" ++ Nat.repr y)) = none →
            listBucket fs y w = []) := by
  constructor
  · unfold loadWeeklyIndex readFileJson
    rcases h with h | ⟨s, h⟩ <;> rw [h]
  · intro y w hw
    simp only [listBucket, loadWeeklyIndex, readFileJson, hw, List.map_nil]

/-- Witness for C6 on the empty filesystem. -/
theorem C6_absent_bucket_empty_witness :
    (emptyFS (indexPath ("w41-2024")) = none
        ∨ ∃ s, emptyFS (indexPath ("w41-2024")) = some (.text s))
      ∧ (loadWeeklyIndex emptyFS ("w41-2024") = { name := "w41-2024", messages := [] }
          ∧ (∀ y w : Nat,
              emptyFS (indexPath ("w" ++ Nat.repr w ++ "-" ++ Nat.repr y)) = none →
                listBucket emptyFS y w = [])) :=
  ⟨Or.inl rfl, C6_absent_bucket_empty emptyFS ("w41-2024") (Or.inl rfl)⟩

/-- Claim C8: the message-fetch route re-derives exactly the ingestion-time
storage path from `username@domain`, and any read or parse failure
(including an absent artifact) produces the uniform 404 `Not Found`
response with no detail. -/
theorem C8_fetch_message_not_found (fs : FS) (domain username messageFilename : String)
    (h : readFileJson fs
        ("mail/" ++ sanitize (username ++ "@" ++ domain) ++ "/" ++ messageFilename) = none) :
    ("mail/" ++ sanitize (username ++ "@" ++ domain) ++ "/" ++ messageFilename
        = recipientFolderPathOf (username ++ "@" ++ domain) ++ messageFilename)
      ∧ fetchMessageRoute fs domain username messageFilename
          = (404, Json.obj [("message", Json.str ("Not Found"))]) := by
  constructor
  · rfl
  · simp only [fetchMessageRoute, loadMessage, h]

/-- Witness for C8 on the empty filesystem. -/
theorem C8_fetch_message_not_found_witness :
    readFileJson emptyFS
        ("mail/" ++ sanitize ("alice" ++ "@" ++ "example.com") ++ "/" ++ "m.json") = none
      ∧ (("mail/" ++ sanitize ("alice" ++ "@" ++ "example.com") ++ "/" ++ "m.json"
            = recipientFolderPathOf ("alice" ++ "@" ++ "example.com") ++ "m.json")
          ∧ fetchMessageRoute emptyFS ("example.com") ("alice") ("m.json")
              = (404, Json.obj [("message", Json.str ("Not Found"))])) :=
  ⟨rfl, C8_fetch_message_not_found emptyFS ("example.com") ("alice") ("m.json") rfl⟩

/-!  Support for claim C10: the weekly-index wellformedness invariant. -/

/-- A summary fit for a weekly index: no decode error, no write error, and a
non-empty artifact filename. -/
def goodSummary (s : TransactionSummary) : Prop :=
  s.error = none ∧ s.writeErr = none ∧ s.filename ≠ ""

/-- Every summary stored in any weekly bucket (the digit-named buckets the
read API can address) is good. -/
def goodIndexFS (fs : FS) : Prop :=
  ∀ y w : Nat,
    ∀ s ∈ (loadWeeklyIndex fs ("w" ++ Nat.repr w ++ "-" ++ Nat.repr y)).messages, goodSummary s

/-- The empty filesystem satisfies the invariant. -/
theorem goodIndexFS_empty : goodIndexFS emptyFS := by
  intro y w s hmem
  simp [loadWeeklyIndex, readFileJson, emptyFS] at hmem

/-- Reading a bucket after writing non-JSON text somewhere. -/
theorem loadWeeklyIndex_write_text (fs : FS) (p s n : String) :
    loadWeeklyIndex (fs.write p (.text s)) n
      = if indexPath n = p then { name := n, messages := [] } else loadWeeklyIndex fs n := by
  unfold loadWeeklyIndex readFileJson FS.write
  by_cases h : indexPath n = p <;> simp [h]

/-- Reading a bucket after writing a JSON document somewhere. -/
theorem loadWeeklyIndex_write_json (fs : FS) (p : String) (j : Json) (n : String) :
    loadWeeklyIndex (fs.write p (.json j)) n
      = if indexPath n = p then (decodeIndex j).getD { name := n, messages := [] }
        else loadWeeklyIndex fs n := by
  unfold loadWeeklyIndex readFileJson FS.write
  by_cases h : indexPath n = p <;> simp [h]

/-- Writing plain text anywhere preserves the invariant. -/
theorem goodIndexFS_write_text (fs : FS) (p s : String) (h : goodIndexFS fs) :
    goodIndexFS (fs.write p (.text s)) := by
  intro y w s' hmem
  rw [loadWeeklyIndex_write_text] at hmem
  by_cases hp : indexPath ("w" ++ Nat.repr w ++ "-" ++ Nat.repr y) = p
  · rw [if_pos hp] at hmem
    cases hmem
  · rw [if_neg hp] at hmem
    exact h y w s' hmem

/-- Writing a JSON document that does not decode as an index (such as a
stringified `Error`) preserves the invariant. -/
theorem goodIndexFS_write_undecodable (fs : FS) (p : String) (j : Json)
    (hj : decodeIndex j = none) (h : goodIndexFS fs) :
    goodIndexFS (fs.write p (.json j)) := by
  intro y w s' hmem
  rw [loadWeeklyIndex_write_json] at hmem
  by_cases hp : indexPath ("w" ++ Nat.repr w ++ "-" ++ Nat.repr y) = p
  · rw [if_pos hp, hj] at hmem
    cases hmem
  · rw [if_neg hp] at hmem
    exact h y w s' hmem

/-- A per-recipient artifact path (which contains a second slash after the
`mail/` root) is never a weekly bucket path (whose name is slash-free). -/
theorem artifact_path_ne_bucket (san r1 r2 : String) (y w : Nat) :
    "mail/" ++ san ++ "/" ++ r1 ++ r2
      ≠ indexPath ("w" ++ Nat.repr w ++ "-" ++ Nat.repr y) := by
  intro h
  have h2 := congrArg (fun s => s.data.count '/') h
  simp only [indexPath, String.data_append, List.count_append] at h2
  have cm : ("mail/").data.count '/' = 1 := by decide
  have cs : ("/").data.count '/' = 1 := by decide
  have cj : (".json").data.count '/' = 0 := by decide
  have cw : ("w").data.count '/' = 0 := by decide
  have cd : ("-").data.count '/' = 0 := by decide
  rw [cm, cs, cj, cw, cd, count_slash_repr w, count_slash_repr y] at h2
  omega

/-- Writing any JSON document at a per-recipient artifact path preserves
the invariant. -/
theorem goodIndexFS_write_artifact (fs : FS) (san r1 r2 : String) (j : Json)
    (h : goodIndexFS fs) :
    goodIndexFS (fs.write ("mail/" ++ san ++ "/" ++ r1 ++ r2) (.json j)) := by
  intro y w s' hmem
  rw [loadWeeklyIndex_write_json,
      if_neg (fun hc => artifact_path_ne_bucket san r1 r2 y w hc.symm)] at hmem
  exact h y w s' hmem

/-- A good summary is unchanged by the store/load canonicalization. -/
theorem canon_of_good (s : TransactionSummary) (h1 : s.error = none)
    (h2 : s.writeErr = none) : canonSummary s = s := by
  obtain ⟨r, mi, pa, fa, su, fn, er, we⟩ := s
  cases er with
  | some e => exact Option.noConfusion h1
  | none =>
    cases we with
    | some e => exact Option.noConfusion h2
    | none => rfl

/-- Unfolded form of the index update. -/
theorem updateOrCreate_eq (fs : FS) (s : TransactionSummary) :
    updateOrCreateWeeklyMessageIndex fs s
      = saveWeeklyIndex fs
          { name := (loadWeeklyIndex fs (weekBucketToken (fromISO s.processedAt))).name,
            messages :=
              s :: (loadWeeklyIndex fs (weekBucketToken (fromISO s.processedAt))).messages } := rfl

/-- Appending a good summary whose timestamp parses preserves the
invariant. -/
theorem update_preserves_good (fs : FS) (s : TransactionSummary) (d : UtcDateTime)
    (hp : fromISO s.processedAt = some d) (hfs : goodIndexFS fs)
    (h1 : s.error = none) (h2 : s.writeErr = none) (h3 : s.filename ≠ "") :
    goodIndexFS (updateOrCreateWeeklyMessageIndex fs s) := by
  intro y w s' hmem
  rw [updateOrCreate_eq, saveWeeklyIndex, loadWeeklyIndex_write_json] at hmem
  by_cases hpq : indexPath ("w" ++ Nat.repr w ++ "-" ++ Nat.repr y)
      = indexPath (loadWeeklyIndex fs (weekBucketToken (fromISO s.processedAt))).name
  · rw [if_pos hpq, decode_encode_index] at hmem
    simp only [Option.getD_some, List.map_cons] at hmem
    rcases List.mem_cons.mp hmem with heq | hmem2
    · subst heq
      rw [canon_of_good s h1 h2]
      exact ⟨h1, h2, h3⟩
    · obtain ⟨x, hx, hxeq⟩ := List.mem_map.mp hmem2
      have hxgood : goodSummary x := by
        have hb : weekBucketToken (fromISO s.processedAt)
            = "w" ++ Nat.repr d.weekNumber ++ "-" ++ Nat.repr d.year := by
          rw [hp]
          rfl
        rw [hb] at hx
        exact hfs d.year d.weekNumber x hx
      rw [← hxeq, canon_of_good x hxgood.1 hxgood.2.1]
      exact hxgood
  · rw [if_neg hpq] at hmem
    exact hfs y w s' hmem

/-- Summary produced by a decode failure (the write outcome only adds
`writeErr`). -/
@[reducible] def errSummary (a mid : String) (t : UtcDateTime) (e : JsError)
    (w : Option JsError) : TransactionSummary :=
  { recipientFolderPath := recipientFolderPathOf a, messageId := mid,
    processedAt := toISO t, filename := "", error := some e, writeErr := w }

/-- Summary produced by a decode success (the write outcome only adds
`writeErr`). -/
@[reducible] def okSummary (a mid : String) (t : UtcDateTime) (p : ParsedMail)
    (w : Option JsError) : TransactionSummary :=
  { recipientFolderPath := recipientFolderPathOf a, messageId := mid,
    processedAt := toISO t,
    fromAddr := jsFirstAddress p.fromAddr,
    subject := p.subject,
    filename := (toISO t ++ "-" ++ mid) ++ ".json", error := none, writeErr := w }

/-- Filesystem after the raw capture of one message. -/
@[reducible] def rawWritten (fs : FS) (a mid : String) (t : UtcDateTime) (raw : String) : FS :=
  fs.write (recipientFolderPathOf a ++ (toISO t ++ "-" ++ mid) ++ ".raw") (.text raw)

/-- Summary returned by `onData` on a decode failure. -/
theorem onData_fst_err (fs : FS) (a mid : String) (t : UtcDateTime)
    (e : JsError) (w : Option JsError) (raw : String) :
    (onData fs a mid t (.error e) w raw).1 = errSummary a mid t e w := by
  cases w <;> rfl

/-- Summary returned by `onData` on a decode success. -/
theorem onData_fst_ok (fs : FS) (a mid : String) (t : UtcDateTime)
    (p : ParsedMail) (w : Option JsError) (raw : String) :
    (onData fs a mid t (.ok p) w raw).1 = okSummary a mid t p w := by
  cases w <;> rfl

/-- Filesystem effect of `onData` on a decode failure with a failed artifact
write: only the raw capture; no index update. -/
theorem onData_snd_err_wfail (fs : FS) (a mid : String) (t : UtcDateTime)
    (e we : JsError) (raw : String) :
    (onData fs a mid t (.error e) (some we) raw).2 = rawWritten fs a mid t raw := rfl

/-- Filesystem effect of `onData` on a decode failure with a successful
error-artifact write: raw capture plus the `.err` artifact; no index
update. -/
theorem onData_snd_err_wok (fs : FS) (a mid : String) (t : UtcDateTime)
    (e : JsError) (raw : String) :
    (onData fs a mid t (.error e) none raw).2
      = (rawWritten fs a mid t raw).write
          (recipientFolderPathOf a ++ (toISO t ++ "-" ++ mid) ++ ".err")
          (.json (encodeError e)) := rfl

/-- Filesystem effect of `onData` on a decode success with a failed artifact
write: only the raw capture; no index update. -/
theorem onData_snd_ok_wfail (fs : FS) (a mid : String) (t : UtcDateTime)
    (p : ParsedMail) (we : JsError) (raw : String) :
    (onData fs a mid t (.ok p) (some we) raw).2 = rawWritten fs a mid t raw := rfl

/-- Pair form of `onData` on a fully successful ingestion. -/
theorem onData_eq_ok_wok (fs : FS) (a mid : String) (t : UtcDateTime)
    (p : ParsedMail) (raw : String) :
    onData fs a mid t (.ok p) none raw
      = (okSummary a mid t p none,
         updateOrCreateWeeklyMessageIndex
           ((rawWritten fs a mid t raw).write
             (recipientFolderPathOf a ++ (toISO t ++ "-" ++ mid) ++ ".json")
             (.json p.serialized))
           (okSummary a mid t p none)) := rfl

/-- Filesystem effect of ingestion alone (`handleMessageStream`), for the
comparison in C10's gating clause. -/
theorem hms_snd (fs : FS) (a mid : String) (t : UtcDateTime)
    (pr : Except JsError ParsedMail) (w : Option JsError) (raw : String) :
    (handleMessageStream fs (recipientFolderPathOf a) mid t pr w raw).2
      = (match pr, w with
         | .error _, some _ => rawWritten fs a mid t raw
         | .error e, none =>
            (rawWritten fs a mid t raw).write
              (recipientFolderPathOf a ++ (toISO t ++ "-" ++ mid) ++ ".err")
              (.json (encodeError e))
         | .ok _, some _ => rawWritten fs a mid t raw
         | .ok p, none =>
            (rawWritten fs a mid t raw).write
              (recipientFolderPathOf a ++ (toISO t ++ "-" ++ mid) ++ ".json")
              (.json p.serialized)) := by
  cases pr <;> cases w <;> rfl

set_option maxHeartbeats 1600000 in
/-- Claim C10: `onData` appends the Transaction Summary to the weekly index
only when both `error` and `writeErr` are absent (otherwise the filesystem
is exactly the ingestion result, untouched by any index write), and
consequently every summary stored in any weekly bucket has no decode or
persistence failure and a non-empty filename. -/
theorem C10_index_only_good_summaries (fs : FS) (a mid : String) (t : UtcDateTime)
    (pr : Except JsError ParsedMail) (w : Option JsError) (raw : String) (d : UtcDateTime)
    (ht : fromISO (toISO t) = some d) (hfs : goodIndexFS fs) :
    (((onData fs a mid t pr w raw).1.error ≠ none
        ∨ (onData fs a mid t pr w raw).1.writeErr ≠ none) →
        (onData fs a mid t pr w raw).2
          = (handleMessageStream fs (recipientFolderPathOf a) mid t pr w raw).2)
      ∧ goodIndexFS (onData fs a mid t pr w raw).2 := by
  cases pr with
  | error e =>
    cases w with
    | some we =>
      rw [onData_snd_err_wfail, hms_snd]
      exact ⟨fun _ => rfl, goodIndexFS_write_text _ _ _ hfs⟩
    | none =>
      rw [onData_snd_err_wok, hms_snd]
      exact ⟨fun _ => rfl,
        goodIndexFS_write_undecodable _ _ _ rfl (goodIndexFS_write_text _ _ _ hfs)⟩
  | ok p =>
    cases w with
    | some we =>
      rw [onData_snd_ok_wfail, hms_snd]
      exact ⟨fun _ => rfl, goodIndexFS_write_text _ _ _ hfs⟩
    | none =>
      rw [onData_eq_ok_wok]
      constructor
      · intro h
        rcases h with h | h <;> exact absurd rfl h
      · dsimp only
        apply update_preserves_good _ _ d
        · exact ht
        · exact goodIndexFS_write_artifact _ (sanitize a) (toISO t ++ "-" ++ mid) (".json") _
            (goodIndexFS_write_text _ _ _ hfs)
        · rfl
        · rfl
        · exact append_json_ne_empty _

/-- Witness for C10 at a concrete successful ingestion. -/
theorem C10_index_only_good_summaries_witness :
    fromISO (toISO (⟨2024, 10, 7, 12, 0, 0, 0⟩ : UtcDateTime))
        = some (⟨2024, 10, 7, 12, 0, 0, 0⟩ : UtcDateTime)
      ∧ goodIndexFS emptyFS
      ∧ ((((onData emptyFS ("bob@example.com") ("m7") ⟨2024, 10, 7, 12, 0, 0, 0⟩
              (.ok {}) none ("x")).1.error ≠ none
            ∨ (onData emptyFS ("bob@example.com") ("m7") ⟨2024, 10, 7, 12, 0, 0, 0⟩
              (.ok {}) none ("x")).1.writeErr ≠ none) →
            (onData emptyFS ("bob@example.com") ("m7") ⟨2024, 10, 7, 12, 0, 0, 0⟩
              (.ok {}) none ("x")).2
              = (handleMessageStream emptyFS (recipientFolderPathOf ("bob@example.com")) ("m7")
                  ⟨2024, 10, 7, 12, 0, 0, 0⟩ (.ok {}) none ("x")).2)
          ∧ goodIndexFS (onData emptyFS ("bob@example.com") ("m7") ⟨2024, 10, 7, 12, 0, 0, 0⟩
              (.ok {}) none ("x")).2) :=
  ⟨by decide, goodIndexFS_empty,
    C10_index_only_good_summaries emptyFS ("bob@example.com") ("m7") ⟨2024, 10, 7, 12, 0, 0, 0⟩
      (.ok {}) none ("x") ⟨2024, 10, 7, 12, 0, 0, 0⟩ (by decide) goodIndexFS_empty⟩

/-- First of two concurrently ingested summaries, ISO week 41 of 2024. -/
def sampleSummary1 : TransactionSummary :=
  { recipientFolderPath := "mail/alice@example.com/", messageId := "m1",
    processedAt := "2024-10-07T10:00:00.000Z",
    filename := "2024-10-07T10:00:00.000Z-m1.json" }

/-- Second of two concurrently ingested summaries, same ISO week bucket. -/
def sampleSummary2 : TransactionSummary :=
  { recipientFolderPath := "mail/bob@example.com/", messageId := "m2",
    processedAt := "2024-10-08T11:00:00.000Z",
    filename := "2024-10-08T11:00:00.000Z-m2.json" }

/-- Claim C1, evaluated at its failing input: the code has no per-bucket
serialization — `updateOrCreateWeeklyMessageIndex` suspends between its
load and its save — so in the schedule where two updates for the same
bucket `w41-2024` both load (the empty bucket) before either saves, both
updates complete yet the persisted bucket holds only the later summary:
one of the two entries is lost, contradicting the claimed
"exactly N entries, no entry lost". -/
theorem C1_concurrent_updates_lose_entries :
    weekBucketToken (fromISO sampleSummary1.processedAt) = "w41-2024"
      ∧ weekBucketToken (fromISO sampleSummary2.processedAt) = "w41-2024"
      ∧ (∀ task ∈ (runSchedule
            { fs := emptyFS,
              tasks := [{ summary := sampleSummary1, phase := .pending },
                        { summary := sampleSummary2, phase := .pending }] }
            [0, 1, 0, 1]).tasks, task.phase = UpdatePhase.done)
      ∧ (loadWeeklyIndex (runSchedule
            { fs := emptyFS,
              tasks := [{ summary := sampleSummary1, phase := .pending },
                        { summary := sampleSummary2, phase := .pending }] }
            [0, 1, 0, 1]).fs ("w41-2024")).messages = [sampleSummary2] := by
  exact ⟨by decide, by decide, by decide, by decide⟩
